import Mathlib

/-!
Shallow embedding of rustrix (`src/main.rs`): RGB color arithmetic, the
`Drop` state machine, the double-buffered `Screen` diff renderer, the
`MatrixEngine`, and the main scheduler loop.

Modelling conventions:
* `f64` values are modelled as exact rationals; Rust's `f64::round`
  (half away from zero) and the saturating/truncating `as` casts are
  modelled explicitly.
* every `thread_rng` draw is an explicit oracle input (`NewRand` for the
  draws consumed by `Drop::new_random`, `DropRand` for one `Drop::update`
  call), threaded by index through the engine-level operations.
* terminal output is modelled as a list of instructions (`OutInstr`);
  whether a terminal write succeeds is an external condition and is an
  explicit boolean input of the scheduler model.
* fallible operations return `Option` (`render_drops` is `none` exactly
  when the Rust code would divide by a zero `screen.width`).
-/

namespace Rustrix

/-- Rust `f64::round` (round half away from zero), landing in `Int`. -/
def roundQI (x : ℚ) : ℤ := if 0 ≤ x then ⌊x + 1/2⌋ else ⌈x - 1/2⌉

/-- Rust `as u8` cast from `f64`: truncate toward zero, saturating to `[0, 255]`. -/
def f64AsU8 (x : ℚ) : ℕ := if x < 0 then 0 else min ⌊x⌋.toNat 255

/-- Rust `as usize` cast from `f64`: truncate toward zero, negative values become 0. -/
def f64AsUsize (x : ℚ) : ℕ := if x < 0 then 0 else ⌊x⌋.toNat

/-- Rust `as u8` cast applied to an already-rounded integer value (saturating). -/
def intAsU8 (n : ℤ) : ℕ := (min (max n 0) 255).toNat

/-- Rust `as u16` cast from `i32` (wraps modulo `2^16`). -/
def u16ofInt (n : ℤ) : ℕ := (n.emod 65536).toNat

/-- `RgbColor` (main.rs:33): three 8-bit channels, carried as naturals `≤ 255`. -/
structure RgbColor where
  r : ℕ
  g : ℕ
  b : ℕ
deriving DecidableEq

/-- `RgbColor::blend` (main.rs:41): clamp the factor to `[0,1]`, then per
channel linear interpolation rounded to nearest (`.round() as u8`). -/
def RgbColor.blend (start target : RgbColor) (factor : ℚ) : RgbColor :=
  let f := min (max factor 0) 1
  { r := intAsU8 (roundQI ((start.r : ℚ) * (1 - f) + (target.r : ℚ) * f)),
    g := intAsU8 (roundQI ((start.g : ℚ) * (1 - f) + (target.g : ℚ) * f)),
    b := intAsU8 (roundQI ((start.b : ℚ) * (1 - f) + (target.b : ℚ) * f)) }

/-- `RgbColor::brighten` (main.rs:51): per channel multiply, truncated
(`as u8`, saturating) and capped with `.min(255)`. -/
def RgbColor.brighten (c : RgbColor) (factor : ℚ) : RgbColor :=
  { r := min (f64AsU8 ((c.r : ℚ) * factor)) 255,
    g := min (f64AsU8 ((c.g : ℚ) * factor)) 255,
    b := min (f64AsU8 ((c.b : ℚ) * factor)) 255 }

/-- `Drop` (main.rs:86): one falling stream. -/
structure Drop where
  pos : ℚ
  length : ℤ
  char : Char
  active : Bool
deriving DecidableEq

/-- Oracle for the random draws consumed by one `Drop::new_random` call:
`u1 ∈ [0, screen_height)`, `u2 ∈ [0, screen_height/2)`, `len ∈ [8, 20)`,
and the index of the glyph chosen from the character set. -/
structure NewRand where
  u1 : ℚ
  u2 : ℚ
  len : ℤ
  charIdx : ℕ
deriving DecidableEq

/-- Oracle for one `Drop::update` call: the single `[0,1)` draw `u` it may
consume plus the draws of the `new_random` call it may make. -/
structure DropRand where
  u : ℚ
  nr : NewRand
deriving DecidableEq

/-- `Drop::new_random` (main.rs:237): `pos = U(0,h) - U(0,h/2)`,
`length = randint[8,20)`, glyph chosen from the character set (the set is
never empty in the program, so `choose(..).unwrap()` is modelled by a
modular lookup), state Active. -/
def Drop.new_random (screen_height : ℕ) (char_set : List Char) (r : NewRand) : Drop :=
  { pos := r.u1 - r.u2,
    length := r.len,
    char := char_set.getD (r.charIdx % char_set.length) ' ',
    active := true }

/-- `Drop::update` (main.rs:248). Inactive: reactivate with probability
`0.005 * density`. Active: `pos += fall_distance`; if
`pos - length > screen_height` then with probability
`max(0.15 - density*0.05, 0.01)` become inactive, otherwise respawn via
`new_random`; the `screen_height as u16` cast wraps. -/
def Drop.update (d : Drop) (screen_height : ℤ) (density : ℚ) (char_set : List Char)
    (fall_distance : ℚ) (r : DropRand) : Drop :=
  if d.active = false then
    (if r.u < 5/1000 * density then Drop.new_random (u16ofInt screen_height) char_set r.nr else d)
  else
    let pos2 := d.pos + fall_distance
    if pos2 - (d.length : ℚ) > (screen_height : ℚ) then
      (if r.u < max (15/100 - density * (5/100)) (1/100) then
        { d with pos := pos2, active := false }
      else Drop.new_random (u16ofInt screen_height) char_set r.nr)
    else { d with pos := pos2 }

/-- `Screen` (main.rs:163): a character grid and an optional-color grid. -/
structure Screen where
  chars : List (List Char)
  colors : List (List (Option RgbColor))
  height : ℕ
  width : ℕ
  background_rgb : RgbColor
deriving DecidableEq

/-- `Screen::new` (main.rs:173). -/
def Screen.new (height width : ℕ) (background_rgb : RgbColor) : Screen :=
  { chars := List.replicate height (List.replicate width ' '),
    colors := List.replicate height (List.replicate width none),
    height := height,
    width := width,
    background_rgb := background_rgb }

/-- `Screen::clear` (main.rs:193): fill every row with blanks / no color. -/
def Screen.clear (s : Screen) : Screen :=
  { s with chars := s.chars.map (fun row => row.map (fun _ => ' ')),
           colors := s.colors.map (fun row => row.map (fun _ => none)) }

/-- `Screen::resize` (main.rs:184): set the dimensions, reallocate both
grids, then `clear`. -/
def Screen.resize (s : Screen) (new_height new_width : ℕ) : Screen :=
  Screen.clear
    { s with height := new_height,
             width := new_width,
             chars := List.replicate new_height (List.replicate new_width ' '),
             colors := List.replicate new_height (List.replicate new_width none) }

/-- Character at a coordinate (the Rust code indexes `self.chars[row][col]`
inside the screen's extent; out-of-extent lookups default to a blank). -/
def Screen.charAt (s : Screen) (row col : ℕ) : Char :=
  (s.chars.getD row []).getD col ' '

/-- Stored color option at a coordinate. -/
def Screen.colorAt (s : Screen) (row col : ℕ) : Option RgbColor :=
  (s.colors.getD row []).getD col none

/-- Resolved color used when emitting: `unwrap_or(self.background_rgb)`
(main.rs:217). -/
def Screen.resolvedColorAt (s : Screen) (row col : ℕ) : RgbColor :=
  (s.colorAt row col).getD s.background_rgb

/-- The `cell_changed` condition of `Screen::render_changes` (main.rs:209):
out of `previous`'s bounds, or characters differ, or the *stored* color
options differ. -/
def Screen.cell_changed (cur prev : Screen) (row col : ℕ) : Bool :=
  decide (prev.height ≤ row) || decide (prev.width ≤ col) ||
  decide (cur.charAt row col ≠ prev.charAt row col) ||
  decide (cur.colorAt row col ≠ prev.colorAt row col)

/-- The spec's version of the change condition ("its resolved color (cell
color, defaulting to background when unset) differs"), written from the
spec's words for comparison with `Screen.cell_changed`. -/
def Screen.spec_cell_changed (cur prev : Screen) (row col : ℕ) : Bool :=
  decide (prev.height ≤ row) || decide (prev.width ≤ col) ||
  decide (cur.charAt row col ≠ prev.charAt row col) ||
  decide (cur.resolvedColorAt row col ≠ prev.resolvedColorAt row col)

/-- One queued terminal instruction of `render_changes`. -/
inductive OutInstr where
  | moveTo (col row : ℕ)
  | setColor (c : RgbColor)
  | print (ch : Char)
deriving DecidableEq

/-- The body of `Screen::render_changes` (main.rs:207): row-major scan; for
each changed cell queue a cursor move, a color-set instruction when the
resolved color differs from the last color emitted in this pass, and the
character. -/
def Screen.renderLoop (cur prev : Screen) : List (ℕ × ℕ) → Option RgbColor → List OutInstr
  | [], _ => []
  | (row, col) :: rest, current_color =>
    if Screen.cell_changed cur prev row col then
      let cell_color := (cur.colorAt row col).getD cur.background_rgb
      if some cell_color ≠ current_color then
        OutInstr.moveTo col row :: OutInstr.setColor cell_color ::
          OutInstr.print (cur.charAt row col) ::
          Screen.renderLoop cur prev rest (some cell_color)
      else
        OutInstr.moveTo col row :: OutInstr.print (cur.charAt row col) ::
          Screen.renderLoop cur prev rest current_color
    else Screen.renderLoop cur prev rest current_color

/-- Row-major coordinate order `(row, col)` of the nested loops. -/
def cellOrder (height width : ℕ) : List (ℕ × ℕ) :=
  (List.range height).flatMap (fun row => (List.range width).map (fun col => (row, col)))

/-- `Screen::render_changes` (main.rs:203) as the full list of queued
instructions of one pass (the tracked `current_color` starts at `None`). -/
def Screen.render_changes (cur prev : Screen) : List OutInstr :=
  Screen.renderLoop cur prev (cellOrder cur.height cur.width) none

/-- One row of `Drop::draw` (main.rs:278): compute fade and color index,
then write through the guarded lookup into `chars` followed by the
unguarded write into `colors` at the same coordinates (modelled by
`List.set`, which is a no-op out of bounds; the invariant claim shows the
guarded path implies the `colors` write is in bounds). -/
def Drop.drawRow (d : Drop) (col : ℕ) (trail_colors : List RgbColor) (head_pos : ℤ)
    (sc : Screen) (row : ℤ) : Screen :=
  let dist_from_head := head_pos - row
  let fade_factor := (dist_from_head : ℚ) / (d.length : ℚ)
  let color_index := f64AsUsize
    (min (((dist_from_head : ℚ) / (d.length : ℚ)) * (trail_colors.length : ℚ))
      (((trail_colors.length - 1 : ℕ) : ℚ)))
  let char_to_draw := if fade_factor > 95/100 then ' ' else d.char
  if row.toNat < sc.chars.length then
    (let rowl := sc.chars.getD row.toNat []
     if col < rowl.length then
       { sc with
         chars := sc.chars.set row.toNat (rowl.set col char_to_draw),
         colors := sc.colors.set row.toNat
           ((sc.colors.getD row.toNat []).set col
             (some (trail_colors.getD color_index ⟨0, 0, 0⟩))) }
     else sc)
  else sc

/-- `Drop::draw` (main.rs:270): no-op when inactive; otherwise paint every
screen row between the rounded tail and head positions. -/
def Drop.draw (d : Drop) (screen : Screen) (col : ℕ) (trail_colors : List RgbColor) : Screen :=
  if d.active = false then screen
  else
    let tail_pos := roundQI (d.pos - (d.length : ℚ))
    let head_pos := roundQI d.pos
    (((List.range screen.height).map Int.ofNat).filter
        (fun r => decide (tail_pos ≤ r) && decide (r ≤ head_pos))).foldl
      (Drop.drawRow d col trail_colors head_pos) screen

/-- `MatrixEngine` (main.rs:300). -/
structure MatrixEngine where
  drops : List Drop
  trail_colors : List RgbColor
  density : ℚ
deriving DecidableEq

/-- The drop-count formula of `create_drops` / `resize_drops`
(main.rs:320, 328): `(width as f64 * density).max(width as f64).round() as usize`. -/
def total_drops (width : ℕ) (density : ℚ) : ℕ :=
  (roundQI (max ((width : ℚ) * density) (width : ℚ))).toNat

/-- The spec's formula for the drop count ("count = round(width × density),
floor of width"), written from the spec's words for comparison. -/
def spec_drop_count (width : ℕ) (density : ℚ) : ℕ :=
  max (roundQI ((width : ℚ) * density)).toNat width

/-- `MatrixEngine::create_drops` (main.rs:319). -/
def MatrixEngine.create_drops (width height : ℕ) (density : ℚ) (char_set : List Char)
    (rands : ℕ → NewRand) : List Drop :=
  (List.range (total_drops width density)).map (fun i => Drop.new_random height char_set (rands i))

/-- `MatrixEngine::calculate_trail_colors` (main.rs:358): blend along a
quadratic fade curve, then overwrite entry 0 with `base.brighten(1.4)`. -/
def MatrixEngine.calculate_trail_colors (base background : RgbColor) (steps : ℕ) : List RgbColor :=
  ((List.range steps).map
      (fun i : ℕ => RgbColor.blend base background (((i : ℚ) / ((steps : ℚ) - 1)) ^ 2))).set 0
    (base.brighten (14/10))

/-- `MatrixEngine::new` (main.rs:308). -/
def MatrixEngine.new (height width : ℕ) (base_color : RgbColor) (density : ℚ)
    (background_rgb : RgbColor) (char_set : List Char) (rands : ℕ → NewRand) : MatrixEngine :=
  { drops := MatrixEngine.create_drops width height density char_set rands,
    trail_colors := MatrixEngine.calculate_trail_colors base_color background_rgb 8,
    density := density }

/-- `MatrixEngine::resize_drops` (main.rs:327): recompute the target count;
grow by appending fresh random drops, otherwise truncate. -/
def MatrixEngine.resize_drops (e : MatrixEngine) (new_width new_height : ℕ)
    (char_set : List Char) (rands : ℕ → NewRand) : MatrixEngine :=
  let new_total := total_drops new_width e.density
  if new_total > e.drops.length then
    { e with drops := (e.drops ++
        (List.range (new_total - e.drops.length)).map
          (fun i => Drop.new_random new_height char_set (rands i))) }
  else { e with drops := e.drops.take new_total }

/-- `MatrixEngine::update_drops` (main.rs:342): update every drop with the
same fall distance, each consuming its own random draws. -/
def MatrixEngine.update_drops (e : MatrixEngine) (screen_height : ℤ) (char_set : List Char)
    (fall_distance : ℚ) (rands : ℕ → DropRand) : MatrixEngine :=
  { e with drops := (e.drops.enum.map
      (fun p => Drop.update p.2 screen_height e.density char_set fall_distance (rands p.1))) }

/-- Iteration of `render_drops` over the enumerated drops; `i % screen.width`
divides by zero (a Rust panic) when the width is 0, modelled by `none`. -/
def renderDropsAux (trail_colors : List RgbColor) : List (ℕ × Drop) → Screen → Option Screen
  | [], s => some s
  | (i, d) :: rest, s =>
    if s.width = 0 then none
    else renderDropsAux trail_colors rest (d.draw s (i % s.width) trail_colors)

/-- `MatrixEngine::render_drops` (main.rs:349): clear the screen, then draw
each drop into column `index % width`. -/
def MatrixEngine.render_drops (e : MatrixEngine) (screen : Screen) : Option Screen :=
  renderDropsAux e.trail_colors e.drops.enum screen.clear

/-- Well-formedness of a `Screen`: both grids have exactly `height` rows of
exactly `width` cells. -/
def Screen.wf (s : Screen) : Prop :=
  s.chars.length = s.height ∧ s.colors.length = s.height ∧
  (∀ i, i < s.height → (s.chars.getD i []).length = s.width) ∧
  (∀ i, i < s.height → (s.colors.getD i []).length = s.width)

instance (s : Screen) : Decidable s.wf := by
  unfold Screen.wf
  infer_instance

/-- `FRAME_DURATION` (main.rs:26): 33 milliseconds, in seconds. -/
def frame_duration : ℚ := 33/1000

/-- The mutable state of `main`'s loop (main.rs:437-453). -/
structure AppState where
  width : ℕ
  height : ℕ
  engine : MatrixEngine
  current_screen : Screen
  previous_screen : Screen
  last_frame_time : ℚ
  speed : ℚ
  char_set : List Char
deriving DecidableEq

/-- The absolute frame deadline `last_frame_time + FRAME_DURATION` armed by
`time::sleep_until` (main.rs:486). -/
def nextDeadline (s : AppState) : ℚ := s.last_frame_time + frame_duration

/-- What `reader.next()` resolved to (main.rs:466-483). -/
inductive EventResult where
  | keyEvent (code : Char) (ctrl : Bool)
  | otherEvent
  | streamError
  | streamEnd
deriving DecidableEq

/-- Which arm of the `tokio::select!` resolved, with the external inputs the
frame arm consumes: the current instant, whether the terminal write of
`render_changes` succeeds, and the random draws of `update_drops`. -/
inductive LoopEvent where
  | inputReady (r : EventResult)
  | frameTick (now : ℚ) (renderOk : Bool) (rands : ℕ → DropRand)

/-- One loop iteration's external inputs: the `size()?` poll (which can
fail) with the polled dimensions, the random draws available to
`resize_drops`, and the resolved select arm. -/
inductive IterInput where
  | sizeError
  | iter (w h : ℕ) (resizeRands : ℕ → NewRand) (ev : LoopEvent)

/-- Outcome of one loop iteration: continue, `break` out of the loop (the
path that reaches `cleanup()`), an early `?` return from `main` (which
skips `cleanup()`), or a panic. -/
inductive StepOut where
  | cont (s : AppState)
  | exitLoop (s : AppState)
  | earlyReturn
  | aborted
deriving DecidableEq

/-- The resize poll at the top of each iteration (main.rs:455-462). -/
def pollResize (s : AppState) (new_w new_h : ℕ) (rr : ℕ → NewRand) : AppState :=
  if new_w ≠ s.width ∨ new_h ≠ s.height then
    { s with current_screen := s.current_screen.resize new_h new_w,
             previous_screen := s.previous_screen.resize new_h new_w,
             engine := s.engine.resize_drops new_w new_h s.char_set rr,
             width := new_w,
             height := new_h }
  else s

/-- The `tokio::select!` body (main.rs:464-497): the input arm breaks on
Ctrl+C, a stream error or stream end and ignores everything else; the frame
arm measures the elapsed time, advances `last_frame_time`, updates and
renders the drops, diffs against the previous screen (an I/O failure there
propagates with `?`), then swaps the two screens. -/
def handleEvent (s : AppState) (ev : LoopEvent) : StepOut :=
  match ev with
  | .inputReady r =>
    match r with
    | .keyEvent code ctrl =>
        if code = 'c' ∧ ctrl = true then StepOut.exitLoop s else StepOut.cont s
    | .otherEvent => StepOut.cont s
    | .streamError => StepOut.exitLoop s
    | .streamEnd => StepOut.exitLoop s
  | .frameTick now renderOk rands =>
    let delta_time := now - s.last_frame_time
    let fall_distance := s.speed * delta_time
    let engine2 := s.engine.update_drops (Int.ofNat s.height) s.char_set fall_distance rands
    match engine2.render_drops s.current_screen with
    | none => StepOut.aborted
    | some painted =>
      let _queued := Screen.render_changes painted s.previous_screen
      if renderOk then
        StepOut.cont { s with engine := engine2,
                              last_frame_time := now,
                              current_screen := s.previous_screen,
                              previous_screen := painted }
      else StepOut.earlyReturn

/-- One full loop iteration: `size()?` poll, resize handling, then the
select body. -/
def loopIter (s : AppState) (i : IterInput) : StepOut :=
  match i with
  | .sizeError => StepOut.earlyReturn
  | .iter w h rr ev => handleEvent (pollResize s w h rr) ev

/-- How the loop ended over a finite trace of iteration inputs. -/
inductive LoopResult where
  | brokeOut (s : AppState)
  | earlyReturn
  | aborted
  | ranOut (s : AppState)
deriving DecidableEq

/-- Run the loop over a trace of external inputs. -/
def runLoop (s : AppState) : List IterInput → LoopResult
  | [] => LoopResult.ranOut s
  | i :: rest =>
    match loopIter s i with
    | StepOut.cont s2 => runLoop s2 rest
    | StepOut.exitLoop s2 => LoopResult.brokeOut s2
    | StepOut.earlyReturn => LoopResult.earlyReturn
    | StepOut.aborted => LoopResult.aborted

/-- How many times `main` executes the terminal-restoration sequence
(`cleanup`, main.rs:445) for a given loop outcome: exactly the `break`
paths reach the `cleanup()` call at main.rs:500; a `?` return and a panic
skip it. -/
def cleanupCount : LoopResult → ℕ
  | LoopResult.brokeOut _ => 1
  | _ => 0

/-- An iteration input that is a non-exiting input event (ignored key or
non-key event). -/
def isExitEvent : EventResult → Bool
  | .keyEvent code ctrl => if code = 'c' ∧ ctrl = true then true else false
  | .otherEvent => false
  | .streamError => true
  | .streamEnd => true

/-- An iteration input that resolves the input arm with a non-exiting
event. -/
def isNonExitInput : IterInput → Prop
  | .iter _ _ _ (.inputReady r) => isExitEvent r = false
  | _ => False

/-- Concrete colors used by the concrete instances below. -/
def greenC : RgbColor := ⟨0, 255, 0⟩

def blackC : RgbColor := ⟨0, 0, 0⟩

/-- A fixed randomness oracle: `pos = 0 - 0 = 0`, `length = 8`, first glyph. -/
def nr0 : NewRand := ⟨0, 0, 8, 0⟩

def dr0 : DropRand := ⟨1/2, nr0⟩

/-- Concrete current screen for the diff-condition counterexample: one cell,
character `x`, stored color `None`. -/
def c2_current : Screen := ⟨[['x']], [[none]], 1, 1, blackC⟩

/-- Concrete previous screen: same character, stored color
`Some(background)` (exactly what `trail_colors[7] = background` produces). -/
def c2_previous : Screen := ⟨[['x']], [[some blackC]], 1, 1, blackC⟩

/-- A concrete engine: height 2, width 1, density 1, so exactly one drop,
with `pos = 0`, `length = 8`, glyph `A`. -/
def engine0 : MatrixEngine := MatrixEngine.new 2 1 greenC 1 blackC ['A'] (fun _ => nr0)

/-- The previous screen right after both screens were resized to 2×1. -/
def c3_prev : Screen := (Screen.new 1 1 blackC).resize 2 1

/-- The current screen right after the resize, painted by `render_drops`:
the drop covers row 0 only, row 1 stays blank. -/
def c3_current : Screen :=
  (engine0.render_drops ((Screen.new 1 1 blackC).resize 2 1)).getD (Screen.new 0 0 blackC)

/-- Concrete active drop comfortably inside a height-10 screen. -/
def c6_drop : Drop := ⟨0, 8, 'A', true⟩

/-- Concrete drop for the fall-distance-zero counterexample: head far past
the bottom of a height-10 screen. -/
def c7_drop : Drop := ⟨100, 8, 'A', true⟩

/-- Random draws that take the respawn branch (`u = 1/2 ≥ pauseChance`) and
redraw `pos = 3 - 0 = 3`. -/
def c7_rand : DropRand := ⟨1/2, ⟨3, 0, 9, 0⟩⟩

/-- The loop state right after startup for the scheduler traces: 1×2
terminal, `engine0`, both screens fresh, `last_frame_time = 0`, speed 5. -/
def init_state : AppState :=
  ⟨1, 2, engine0, Screen.new 2 1 blackC, Screen.new 2 1 blackC, 0, 5, ['A']⟩

/-! ### Generic list helpers -/

theorem getD_set {α : Type} (l : List α) (i j : ℕ) (a d : α) :
    (l.set i a).getD j d = if j = i ∧ i < l.length then a else l.getD j d := by
  induction l generalizing i j with
  | nil => simp
  | cons x xs ih =>
    cases i with
    | zero =>
      cases j with
      | zero => simp
      | succ j => simp
    | succ i =>
      cases j with
      | zero => simp
      | succ j => simpa [Nat.succ_lt_succ_iff] using ih i j

theorem getD_map_lt {α β : Type} (f : α → β) (l : List α) (i : ℕ) (hi : i < l.length)
    (d : β) (d0 : α) : (l.map f).getD i d = f (l.getD i d0) := by
  induction l generalizing i with
  | nil => simp at hi
  | cons x xs ih =>
    cases i with
    | zero => simp
    | succ i =>
      simp only [List.map_cons, List.getD_cons_succ]
      exact ih i (by simpa [Nat.succ_lt_succ_iff] using hi)

theorem getD_replicate {α : Type} (a d : α) (n i : ℕ) (hi : i < n) :
    (List.replicate n a).getD i d = a := by
  induction n generalizing i with
  | zero => exact absurd hi (Nat.not_lt_zero i)
  | succ n ih =>
    cases i with
    | zero => simp [List.replicate]
    | succ i => simpa [List.replicate] using ih i (by omega)

theorem getD_range_map {α : Type} (f : ℕ → α) (n i : ℕ) (d : α) :
    ((List.range n).map f).getD i d = if i < n then f i else d := by
  split
  case isTrue h =>
    rw [getD_map_lt f (List.range n) i (by simpa using h) d 0]
    congr 1
    rw [List.getD_eq_getElem _ _ (by simpa using h)]
    simp
  case isFalse h =>
    apply List.getD_eq_default
    simpa using Nat.le_of_not_lt h

/-! ### Rounding-model helpers -/

theorem roundQI_le_roundQI {x y : ℚ} (h : x ≤ y) : roundQI x ≤ roundQI y := by
  unfold roundQI
  split
  case isTrue hx =>
    rw [if_pos (le_trans hx h)]
    exact Int.floor_le_floor (by linarith)
  case isFalse hx =>
    split
    case isTrue hy =>
      calc ⌈x - 1/2⌉ ≤ ⌈(-1/2 : ℚ)⌉ := Int.ceil_le_ceil (by push_neg at hx; linarith)
        _ = 0 := by norm_num
        _ ≤ ⌊y + 1/2⌋ := by
              apply Int.le_floor.mpr
              push_cast
              linarith
    case isFalse hy => exact Int.ceil_le_ceil (by linarith)

theorem roundQI_natCast (n : ℕ) : roundQI (n : ℚ) = n := by
  unfold roundQI
  rw [if_pos (by positivity), add_comm, Int.floor_add_nat]
  norm_num

theorem toNat_max (a b : ℤ) : (max a b).toNat = max a.toNat b.toNat := by
  rcases le_total a b with h | h
  · rw [max_eq_right h, max_eq_right (Int.toNat_le_toNat h)]
  · rw [max_eq_left h, max_eq_left (Int.toNat_le_toNat h)]

theorem total_drops_eq_spec (w : ℕ) (d : ℚ) : total_drops w d = spec_drop_count w d := by
  unfold total_drops spec_drop_count
  have h1 : roundQI (max ((w : ℚ) * d) (w : ℚ)) = max (roundQI ((w : ℚ) * d)) ((w : ℕ) : ℤ) := by
    rcases le_total ((w : ℚ) * d) ((w : ℚ)) with h | h
    · rw [max_eq_right h, roundQI_natCast,
        max_eq_right (by simpa [roundQI_natCast] using roundQI_le_roundQI h)]
    · rw [max_eq_left h, max_eq_left (by simpa [roundQI_natCast] using roundQI_le_roundQI h)]
  rw [h1, toNat_max, Int.toNat_natCast]

/-- C5: the number of drops created by `MatrixEngine` construction, and the
target count recomputed by `resize_drops`, both equal
`round(width × density)` with a minimum of `width`; in particular width 80
with density 1.0 gives 80 drops and width 80 with density 2.0 gives 160. -/
theorem drop_count_round_min_width :
    (∀ w d, total_drops w d = spec_drop_count w d)
    ∧ (∀ h w base d bg cs rands,
        (MatrixEngine.new h w base d bg cs rands).drops.length = total_drops w d)
    ∧ (∀ (e : MatrixEngine) w h cs rands,
        (MatrixEngine.resize_drops e w h cs rands).drops.length = total_drops w e.density)
    ∧ total_drops 80 1 = 80 ∧ total_drops 80 2 = 160 := by
  refine ⟨total_drops_eq_spec, ?_, ?_,
    by unfold total_drops; norm_num [roundQI]; rfl,
    by unfold total_drops; norm_num [roundQI]; rfl⟩
  · intro h w base d bg cs rands
    simp [MatrixEngine.new, MatrixEngine.create_drops]
  · intro e w h cs rands
    by_cases hgt : total_drops w e.density > e.drops.length
    · simp [MatrixEngine.resize_drops, hgt]
      omega
    · simp [MatrixEngine.resize_drops, hgt]
      omega

/-- C6: for an Active drop with post-fall head position `p = pos + fd` and
length `L`, `Drop::update` takes the pause-or-respawn branch exactly when
`p - L > screenHeight` (strict); taken with a draw below
`pauseChance = max(0.15 - density*0.05, 0.01)` it becomes Inactive with all
other fields unchanged, otherwise it is reinitialized via `new_random`; not
taken, only `pos` changes. -/
theorem drop_update_past_bottom_branch :
    ∀ (d : Drop) (sh : ℤ) (density : ℚ) (cs : List Char) (fd : ℚ) (r : DropRand),
      d.active = true →
      ((d.pos + fd - (d.length : ℚ) > (sh : ℚ) →
        ((r.u < max (15/100 - density * (5/100)) (1/100) →
            d.update sh density cs fd r = { d with pos := d.pos + fd, active := false })
          ∧ (¬ r.u < max (15/100 - density * (5/100)) (1/100) →
            d.update sh density cs fd r = Drop.new_random (u16ofInt sh) cs r.nr)))
      ∧ (¬ d.pos + fd - (d.length : ℚ) > (sh : ℚ) →
          d.update sh density cs fd r = { d with pos := d.pos + fd })) := by
  intro d sh density cs fd r ha
  obtain ⟨p, L, ch, a⟩ := d
  replace ha : a = true := ha
  subst ha
  have key : Drop.update ⟨p, L, ch, true⟩ sh density cs fd r =
      if p + fd - (L : ℚ) > (sh : ℚ) then
        (if r.u < max (15/100 - density * (5/100)) (1/100) then
          (⟨p + fd, L, ch, false⟩ : Drop)
        else Drop.new_random (u16ofInt sh) cs r.nr)
      else (⟨p + fd, L, ch, true⟩ : Drop) := rfl
  refine ⟨fun hgt => ⟨fun hu => ?_, fun hu => ?_⟩, fun hle => ?_⟩
  · rw [key, if_pos hgt, if_pos hu]
  · rw [key, if_pos hgt, if_neg hu]
  · rw [key, if_neg hle]

/-- C6 witness: a concrete active drop inside the screen takes the
plain-fall branch. -/
theorem drop_update_past_bottom_branch_witness :
    Drop.update c6_drop 10 1 ['A'] 1 dr0 = { c6_drop with pos := c6_drop.pos + 1 } :=
  (drop_update_past_bottom_branch c6_drop 10 1 ['A'] 1 dr0 rfl).2 (by norm_num [c6_drop])

/-- C7 counterexample: an Active drop whose trail has fully scrolled past
the bottom is reinitialized by `update` even with `fallDistance = 0`, and
its `pos` changes (here from 100 to the fresh draw 3), refuting the claim
that `pos` is left unchanged for every Active drop and every random draw. -/
theorem drop_zero_fall_cex :
    c7_drop.active = true ∧ (c7_drop.update 10 1 ['A'] 0 c7_rand).pos ≠ c7_drop.pos := by
  refine ⟨rfl, ?_⟩
  norm_num [Drop.update, Drop.new_random, c7_drop, c7_rand]

/-- C7 (amended): `Drop::update` with `fallDistance = 0` leaves `pos`
unchanged for an Active drop unless the respawn path is taken, i.e.
whenever `pos - length ≤ screenHeight`, or the branch is entered but the
pause draw succeeds. -/
theorem drop_zero_fall_pos_unchanged :
    ∀ (d : Drop) (sh : ℤ) (density : ℚ) (cs : List Char) (r : DropRand),
      d.active = true →
      (¬ d.pos - (d.length : ℚ) > (sh : ℚ)
        ∨ r.u < max (15/100 - density * (5/100)) (1/100)) →
      (d.update sh density cs 0 r).pos = d.pos := by
  intro d sh density cs r ha hcond
  have key : d.update sh density cs 0 r =
      if d.pos - (d.length : ℚ) > (sh : ℚ) then
        (if r.u < max (15/100 - density * (5/100)) (1/100) then
          { d with pos := d.pos, active := false }
        else Drop.new_random (u16ofInt sh) cs r.nr)
      else { d with pos := d.pos } := by
    simp [Drop.update, ha]
  rcases hcond with h | h
  · rw [key, if_neg h]
  · by_cases hgt : d.pos - (d.length : ℚ) > (sh : ℚ)
    · rw [key, if_pos hgt, if_pos h]
    · rw [key, if_neg hgt]

/-- C7 witness: for a drop still inside the screen, zero fall distance
leaves `pos` unchanged. -/
theorem drop_zero_fall_pos_unchanged_witness :
    (c6_drop.update 10 1 ['A'] 0 dr0).pos = c6_drop.pos :=
  drop_zero_fall_pos_unchanged c6_drop 10 1 ['A'] dr0 rfl (Or.inl (by norm_num [c6_drop]))

/-! ### Color-palette helpers -/

theorem intAsU8_natCast (n : ℕ) (hn : n ≤ 255) : intAsU8 ((n : ℕ) : ℤ) = n := by
  unfold intAsU8
  rw [max_eq_left (Int.natCast_nonneg n), min_eq_left (by exact_mod_cast hn)]
  exact Int.toNat_natCast n

theorem blend_one (a b : RgbColor) (hr : b.r ≤ 255) (hg : b.g ≤ 255) (hb : b.b ≤ 255) :
    RgbColor.blend a b 1 = b := by
  have hf : min (max (1 : ℚ) 0) 1 = 1 := by norm_num
  have chan : ∀ (x y : ℕ), y ≤ 255 →
      intAsU8 (roundQI ((x : ℚ) * (1 - 1) + (y : ℚ) * 1)) = y := by
    intro x y hy
    have : (x : ℚ) * (1 - 1) + (y : ℚ) * 1 = (y : ℚ) := by ring
    rw [this, roundQI_natCast, intAsU8_natCast y hy]
  cases b with
  | mk br bg2 bb =>
    simp only [RgbColor.blend, hf]
    exact RgbColor.mk.injEq _ _ _ _ _ _ |>.mpr ⟨chan a.r br hr, chan a.g bg2 hg, chan a.b bb hb⟩

theorem calculate_trail_colors_len (base bg : RgbColor) (steps : ℕ) :
    (MatrixEngine.calculate_trail_colors base bg steps).length = steps := by
  simp [MatrixEngine.calculate_trail_colors]

theorem trail_getD (base bg : RgbColor) (i : ℕ) (hi1 : 1 ≤ i) (hi : i < 8) (d : RgbColor) :
    (MatrixEngine.calculate_trail_colors base bg 8).getD i d =
      RgbColor.blend base bg (((i : ℚ) / 7) ^ 2) := by
  unfold MatrixEngine.calculate_trail_colors
  rw [getD_set, if_neg (by rintro ⟨h0, h1⟩; omega), getD_range_map, if_pos hi]
  norm_num

theorem brighten_green_14 : RgbColor.brighten greenC (14/10) = greenC := by
  norm_num [RgbColor.brighten, f64AsU8, greenC]

theorem trail_getD_zero (base bg : RgbColor) (d : RgbColor) :
    (MatrixEngine.calculate_trail_colors base bg 8).getD 0 d = base.brighten (14/10) := by
  unfold MatrixEngine.calculate_trail_colors
  rw [getD_set, if_pos ⟨rfl, by simp⟩]

/-- C8: `calculate_trail_colors(base, background, 8)` has exactly 8 entries,
entry `i ∈ [1,8)` is `blend(base, background, (i/7)²)`, entry 0 is
`base.brighten(1.4)`, and entry 7 equals `blend(base, background, 1.0)`
which is exactly `background`; concretely for base green on black,
entry 7 is black and entry 0 is green. -/
theorem trail_colors_palette :
    (∀ base background : RgbColor,
      background.r ≤ 255 → background.g ≤ 255 → background.b ≤ 255 →
      (MatrixEngine.calculate_trail_colors base background 8).length = 8
      ∧ (∀ i, 1 ≤ i → i < 8 →
          (MatrixEngine.calculate_trail_colors base background 8).getD i blackC =
            RgbColor.blend base background (((i : ℚ) / 7) ^ 2))
      ∧ (MatrixEngine.calculate_trail_colors base background 8).getD 0 blackC =
          base.brighten (14/10)
      ∧ (MatrixEngine.calculate_trail_colors base background 8).getD 7 blackC =
          RgbColor.blend base background 1
      ∧ RgbColor.blend base background 1 = background)
    ∧ (MatrixEngine.calculate_trail_colors greenC blackC 8).getD 7 greenC = blackC
    ∧ (MatrixEngine.calculate_trail_colors greenC blackC 8).getD 0 blackC = greenC := by
  refine ⟨?_, ?_, ?_⟩
  · intro base background hbr hbg hbb
    refine ⟨calculate_trail_colors_len base background 8,
      fun i hi1 hi => trail_getD base background i hi1 hi blackC,
      trail_getD_zero base background blackC, ?_, blend_one base background hbr hbg hbb⟩
    rw [trail_getD base background 7 (by omega) (by omega) blackC]
    norm_num
  · rw [trail_getD greenC blackC 7 (by omega) (by omega) greenC,
      show ((((7 : ℕ) : ℚ) / 7) ^ 2) = 1 by norm_num]
    exact blend_one greenC blackC (by norm_num [blackC]) (by norm_num [blackC])
      (by norm_num [blackC])
  · rw [trail_getD_zero greenC blackC blackC]
    exact brighten_green_14

/-! ### Diff-renderer helpers -/

theorem mem_cellOrder (h w row col : ℕ) :
    (row, col) ∈ cellOrder h w ↔ row < h ∧ col < w := by
  constructor
  · intro hm
    simp only [cellOrder, List.mem_flatMap, List.mem_map, List.mem_range] at hm
    obtain ⟨r, hr, c, hc, heq⟩ := hm
    obtain ⟨h1, h2⟩ := Prod.mk.injEq r c row col ▸ heq
    exact ⟨h1 ▸ hr, h2 ▸ hc⟩
  · rintro ⟨hr, hc⟩
    simp only [cellOrder, List.mem_flatMap, List.mem_map, List.mem_range]
    exact ⟨row, hr, col, hc, rfl⟩

theorem moveTo_mem_renderLoop (cur prev : Screen) (row col : ℕ) :
    ∀ (l : List (ℕ × ℕ)) (cc : Option RgbColor),
      (OutInstr.moveTo col row ∈ Screen.renderLoop cur prev l cc ↔
        ((row, col) ∈ l ∧ Screen.cell_changed cur prev row col = true)) := by
  intro l
  induction l with
  | nil => intro cc; simp [Screen.renderLoop]
  | cons p rest ih =>
    intro cc
    obtain ⟨r0, c0⟩ := p
    by_cases hch : Screen.cell_changed cur prev r0 c0 = true
    · by_cases hcol : some ((cur.colorAt r0 c0).getD cur.background_rgb) ≠ cc
      · rw [Screen.renderLoop, if_pos hch, if_pos hcol]
        simp only [List.mem_cons, ih]
        constructor
        · rintro (heq | heq | heq | ⟨hmem, hcg⟩)
          · obtain ⟨h1, h2⟩ := OutInstr.moveTo.injEq col row c0 r0 ▸ heq
            exact ⟨Or.inl (by rw [h1, h2]), by rw [h1, h2]; exact hch⟩
          · exact absurd heq (by simp)
          · exact absurd heq (by simp)
          · exact ⟨Or.inr hmem, hcg⟩
        · rintro ⟨(heq | hmem), hcg⟩
          · obtain ⟨h1, h2⟩ := Prod.mk.injEq row col r0 c0 ▸ heq
            exact Or.inl (by rw [h1, h2])
          · exact Or.inr (Or.inr (Or.inr ⟨hmem, hcg⟩))
      · rw [Screen.renderLoop, if_pos hch, if_neg hcol]
        simp only [List.mem_cons, ih]
        constructor
        · rintro (heq | heq | ⟨hmem, hcg⟩)
          · obtain ⟨h1, h2⟩ := OutInstr.moveTo.injEq col row c0 r0 ▸ heq
            exact ⟨Or.inl (by rw [h1, h2]), by rw [h1, h2]; exact hch⟩
          · exact absurd heq (by simp)
          · exact ⟨Or.inr hmem, hcg⟩
        · rintro ⟨(heq | hmem), hcg⟩
          · obtain ⟨h1, h2⟩ := Prod.mk.injEq row col r0 c0 ▸ heq
            exact Or.inl (by rw [h1, h2])
          · exact Or.inr (Or.inr ⟨hmem, hcg⟩)
    · rw [Screen.renderLoop, if_neg hch]
      rw [ih cc]
      constructor
      · rintro ⟨hmem, hcg⟩
        exact ⟨List.mem_cons_of_mem _ hmem, hcg⟩
      · rintro ⟨hmem, hcg⟩
        rcases List.mem_cons.mp hmem with heq | hmem2
        · obtain ⟨h1, h2⟩ := Prod.mk.injEq row col r0 c0 ▸ heq
          exact absurd (h1 ▸ h2 ▸ hcg) hch
        · exact ⟨hmem2, hcg⟩

theorem render_changes_mem_iff (cur prev : Screen) (row col : ℕ)
    (hr : row < cur.height) (hc : col < cur.width) :
    (OutInstr.moveTo col row ∈ Screen.render_changes cur prev ↔
      (prev.height ≤ row ∨ prev.width ≤ col
        ∨ cur.charAt row col ≠ prev.charAt row col
        ∨ cur.colorAt row col ≠ prev.colorAt row col)) := by
  rw [Screen.render_changes,
    moveTo_mem_renderLoop cur prev row col (cellOrder cur.height cur.width) none,
    mem_cellOrder]
  simp only [hr, hc, and_true, true_and, Screen.cell_changed, Bool.or_eq_true,
    decide_eq_true_eq]
  tauto

theorem resize_charAt (s : Screen) (H W r c : ℕ) : (s.resize H W).charAt r c = ' ' := by
  unfold Screen.resize Screen.clear Screen.charAt
  simp only [List.map_replicate]
  by_cases hr : r < H
  · rw [getD_replicate _ _ _ _ hr]
    by_cases hc : c < W
    · rw [getD_replicate _ _ _ _ hc]
    · rw [List.getD_eq_default _ _ (by simpa using Nat.le_of_not_lt hc)]
  · rw [show (List.replicate H (List.replicate W ' ')).getD r [] = [] from
      List.getD_eq_default _ _ (by simpa using Nat.le_of_not_lt hr)]
    rfl

theorem resize_colorAt (s : Screen) (H W r c : ℕ) : (s.resize H W).colorAt r c = none := by
  unfold Screen.resize Screen.clear Screen.colorAt
  simp only [List.map_replicate]
  by_cases hr : r < H
  · rw [getD_replicate _ _ _ _ hr]
    by_cases hc : c < W
    · rw [getD_replicate _ _ _ _ hc]
    · rw [List.getD_eq_default _ _ (by simpa using Nat.le_of_not_lt hc)]
  · rw [show (List.replicate H (List.replicate W (none : Option RgbColor))).getD r [] = [] from
      List.getD_eq_default _ _ (by simpa using Nat.le_of_not_lt hr)]
    rfl

theorem resize_height (s : Screen) (H W : ℕ) : (s.resize H W).height = H := rfl

theorem resize_width (s : Screen) (H W : ℕ) : (s.resize H W).width = W := rfl

/-- C2 counterexample: a one-cell pair of buffers with equal characters and
equal *resolved* colors (`None` in current, `Some(background)` in previous,
both resolving to the background) for which the claim says "not changed",
yet `render_changes` emits a cursor move and character for the cell: the
code compares the stored color options, not the resolved colors. -/
theorem render_changes_resolved_color_cex :
    0 < c2_current.height ∧ 0 < c2_current.width
    ∧ Screen.spec_cell_changed c2_current c2_previous 0 0 = false
    ∧ c2_current.charAt 0 0 = c2_previous.charAt 0 0
    ∧ c2_current.resolvedColorAt 0 0 = c2_previous.resolvedColorAt 0 0
    ∧ OutInstr.moveTo 0 0 ∈ Screen.render_changes c2_current c2_previous := by
  decide

/-- C2 (amended): a cell in `current`'s extent is treated as changed (cursor
move and character emitted) iff the coordinate lies outside `previous`'s
bounds, or the characters differ, or the *stored* color options differ
(compared as stored, without resolving `None` to the background). -/
theorem render_changes_change_iff :
    ∀ (cur prev : Screen) (row col : ℕ), row < cur.height → col < cur.width →
      (OutInstr.moveTo col row ∈ Screen.render_changes cur prev ↔
        (prev.height ≤ row ∨ prev.width ≤ col
          ∨ cur.charAt row col ≠ prev.charAt row col
          ∨ cur.colorAt row col ≠ prev.colorAt row col)) :=
  fun cur prev row col hr hc => render_changes_mem_iff cur prev row col hr hc

/-- C2 witness: the change condition instantiated at the concrete one-cell
buffers. -/
theorem render_changes_change_iff_witness :
    OutInstr.moveTo 0 0 ∈ Screen.render_changes c2_current c2_previous ↔
      (c2_previous.height ≤ 0 ∨ c2_previous.width ≤ 0
        ∨ c2_current.charAt 0 0 ≠ c2_previous.charAt 0 0
        ∨ c2_current.colorAt 0 0 ≠ c2_previous.colorAt 0 0) :=
  render_changes_change_iff c2_current c2_previous 0 0 (by decide) (by decide)

/-- C3 (amended): right after both screens are resized to H×W (both grids
reallocated and cleared, dimensions equal), the next `render_changes` pass
treats a cell of the current buffer as changed iff its content differs from
the cleared state: its character is not blank or its color is set; blank
uncolored cells are not emitted. -/
theorem resize_then_render_changes :
    ∀ (cur prev0 : Screen) (H W row col : ℕ),
      cur.height = H → cur.width = W → row < H → col < W →
      (OutInstr.moveTo col row ∈ Screen.render_changes cur (prev0.resize H W) ↔
        (cur.charAt row col ≠ ' ' ∨ cur.colorAt row col ≠ none)) := by
  intro cur prev0 H W row col hh hw hr hc
  rw [render_changes_mem_iff cur (prev0.resize H W) row col (hh ▸ hr) (hw ▸ hc),
    resize_charAt, resize_colorAt, resize_height, resize_width]
  constructor
  · rintro (h | h | h | h)
    · omega
    · omega
    · exact Or.inl h
    · exact Or.inr h
  · rintro (h | h)
    · exact Or.inr (Or.inr (Or.inl h))
    · exact Or.inr (Or.inr (Or.inr h))

theorem trail_colors_zero_green : engine0.trail_colors[0]?.getD ⟨0, 0, 0⟩ = greenC := by
  rw [← List.getD_eq_getElem?_getD]
  exact (trail_getD_zero greenC blackC ⟨0, 0, 0⟩).trans brighten_green_14

theorem engine0_drops : engine0.drops = [⟨(0 : ℚ), 8, 'A', true⟩] := by
  show MatrixEngine.create_drops 1 2 1 ['A'] (fun _ => nr0) = _
  unfold MatrixEngine.create_drops
  rw [show total_drops 1 1 = 1 by unfold total_drops; norm_num [roundQI]]
  norm_num [Drop.new_random, nr0]

theorem roundQI_neg_eight : roundQI (-8 : ℚ) = -8 := by
  unfold roundQI
  rw [if_neg (by norm_num), show (-8 : ℚ) - 1/2 = -(17/2) by norm_num, Int.ceil_neg]
  norm_num

theorem drawRow_eval0 : Drop.drawRow ⟨(0 : ℚ), 8, 'A', true⟩ 0 engine0.trail_colors 0
    (⟨[[' '], [' ']], [[none], [none]], 2, 1, blackC⟩ : Screen) 0
    = ⟨[['A'], [' ']], [[some greenC], [none]], 2, 1, blackC⟩ := by
  norm_num [Drop.drawRow, f64AsUsize, trail_colors_zero_green]

theorem draw_eval0 : Drop.draw ⟨(0 : ℚ), 8, 'A', true⟩
    (⟨[[' '], [' ']], [[none], [none]], 2, 1, blackC⟩ : Screen) 0
    engine0.trail_colors = ⟨[['A'], [' ']], [[some greenC], [none]], 2, 1, blackC⟩ := by
  norm_num [Drop.draw, roundQI_neg_eight, show roundQI (0 : ℚ) = 0 by norm_num [roundQI],
    List.range_succ, drawRow_eval0]

theorem render_drops_eval0 : engine0.render_drops ((Screen.new 1 1 blackC).resize 2 1)
    = some ⟨[['A'], [' ']], [[some greenC], [none]], 2, 1, blackC⟩ := by
  unfold MatrixEngine.render_drops
  rw [engine0_drops, show ((Screen.new 1 1 blackC).resize 2 1).clear
      = (⟨[[' '], [' ']], [[none], [none]], 2, 1, blackC⟩ : Screen) from by decide]
  show renderDropsAux engine0.trail_colors [(0, ⟨(0 : ℚ), 8, 'A', true⟩)] _ = _
  unfold renderDropsAux
  rw [if_neg (by decide)]
  unfold renderDropsAux
  rw [show (0 % (⟨[[' '], [' ']], [[none], [none]], 2, 1, blackC⟩ : Screen).width) = 0 from rfl]
  rw [draw_eval0]

/-- C3 counterexample: after both screens are resized to 2×1 and the single
drop of a width-1, density-1 engine is rendered (it paints row 0 only), the
next diff pass emits the painted cell (0,0) but does not treat the blank
cell (1,0) as changed — not every cell of the 2×1 extent is emitted, so the
resize does not force a full redraw. -/
theorem resize_full_redraw_cex :
    (engine0.render_drops ((Screen.new 1 1 blackC).resize 2 1)).isSome = true
    ∧ c3_current.height = 2 ∧ c3_current.width = 1
    ∧ OutInstr.moveTo 0 0 ∈ Screen.render_changes c3_current c3_prev
    ∧ OutInstr.moveTo 0 1 ∉ Screen.render_changes c3_current c3_prev := by
  have hc : c3_current = ⟨[['A'], [' ']], [[some greenC], [none]], 2, 1, blackC⟩ := by
    unfold c3_current
    rw [render_drops_eval0]
    rfl
  have hp : c3_prev = ⟨[[' '], [' ']], [[none], [none]], 2, 1, blackC⟩ := by decide
  rw [render_drops_eval0, hc, hp]
  decide

/-- C3 witness: the amended per-cell condition instantiated at a concrete
painted buffer against a freshly resized previous buffer. -/
theorem resize_then_render_changes_witness :
    OutInstr.moveTo 0 0 ∈ Screen.render_changes c2_current ((Screen.new 1 1 blackC).resize 1 1) ↔
      (c2_current.charAt 0 0 ≠ ' ' ∨ c2_current.colorAt 0 0 ≠ none) :=
  resize_then_render_changes c2_current (Screen.new 1 1 blackC) 1 1 0 0 rfl rfl
    (by omega) (by omega)

/-- C8 witness: the palette facts instantiated at green on black. -/
theorem trail_colors_palette_witness :
    (MatrixEngine.calculate_trail_colors greenC blackC 8).length = 8 :=
  (trail_colors_palette.1 greenC blackC (by decide) (by decide) (by decide)).1

/-! ### Grid well-formedness -/

theorem new_wf (h w : ℕ) (bg : RgbColor) : (Screen.new h w bg).wf := by
  refine ⟨by simp [Screen.new], by simp [Screen.new], ?_, ?_⟩
  · intro i hi
    replace hi : i < h := hi
    show ((List.replicate h (List.replicate w ' ')).getD i []).length = w
    rw [getD_replicate _ _ _ _ hi]
    simp
  · intro i hi
    replace hi : i < h := hi
    show ((List.replicate h (List.replicate w (none : Option RgbColor))).getD i []).length = w
    rw [getD_replicate _ _ _ _ hi]
    simp

theorem clear_wf (s : Screen) (h : s.wf) : s.clear.wf := by
  obtain ⟨h1, h2, h3, h4⟩ := h
  refine ⟨by simpa [Screen.clear] using h1, by simpa [Screen.clear] using h2, ?_, ?_⟩
  · intro i hi
    show ((s.chars.map (fun row => row.map (fun _ => ' '))).getD i []).length = s.width
    rw [getD_map_lt _ _ i (by rw [h1]; exact hi) [] []]
    simpa using h3 i hi
  · intro i hi
    show ((s.colors.map (fun row => row.map (fun _ => (none : Option RgbColor)))).getD i
      []).length = s.width
    rw [getD_map_lt _ _ i (by rw [h2]; exact hi) [] []]
    simpa using h4 i hi

theorem resize_wf (s : Screen) (H W : ℕ) : (s.resize H W).wf := by
  unfold Screen.resize
  apply clear_wf
  refine ⟨by simp, by simp, ?_, ?_⟩
  · intro i hi
    replace hi : i < H := hi
    show ((List.replicate H (List.replicate W ' ')).getD i []).length = W
    rw [getD_replicate _ _ _ _ hi]
    simp
  · intro i hi
    replace hi : i < H := hi
    show ((List.replicate H (List.replicate W (none : Option RgbColor))).getD i []).length = W
    rw [getD_replicate _ _ _ _ hi]
    simp

theorem drawRow_wf (d : Drop) (col : ℕ) (tc : List RgbColor) (hp : ℤ) (sc : Screen) (row : ℤ)
    (h : sc.wf) : (Drop.drawRow d col tc hp sc row).wf := by
  obtain ⟨h1, h2, h3, h4⟩ := h
  unfold Drop.drawRow
  dsimp only
  split
  case isFalse => exact ⟨h1, h2, h3, h4⟩
  case isTrue hr =>
    split
    case isFalse => exact ⟨h1, h2, h3, h4⟩
    case isTrue hc =>
      refine ⟨by simpa using h1, by simpa using h2, ?_, ?_⟩
      · intro i hi
        show ((sc.chars.set row.toNat _).getD i []).length = sc.width
        rw [getD_set]
        split
        case isTrue hcond =>
          rw [List.length_set]
          exact h3 row.toNat (by rw [← h1]; exact hcond.2)
        case isFalse => exact h3 i hi
      · intro i hi
        show ((sc.colors.set row.toNat _).getD i []).length = sc.width
        rw [getD_set]
        split
        case isTrue hcond =>
          rw [List.length_set]
          exact h4 row.toNat (by rw [← h2]; exact hcond.2)
        case isFalse => exact h4 i hi

theorem foldl_drawRow_wf (d : Drop) (col : ℕ) (tc : List RgbColor) (hp : ℤ) :
    ∀ (rows : List ℤ) (sc : Screen), sc.wf →
      (rows.foldl (Drop.drawRow d col tc hp) sc).wf := by
  intro rows
  induction rows with
  | nil => intro sc h; exact h
  | cons r rest ih =>
    intro sc h
    rw [List.foldl_cons]
    exact ih _ (drawRow_wf d col tc hp sc r h)

theorem draw_wf (d : Drop) (sc : Screen) (col : ℕ) (tc : List RgbColor) (h : sc.wf) :
    (d.draw sc col tc).wf := by
  unfold Drop.draw
  split
  case isTrue => exact h
  case isFalse => exact foldl_drawRow_wf d col tc _ _ sc h

theorem drawRow_width (d : Drop) (col : ℕ) (tc : List RgbColor) (hp : ℤ) (sc : Screen)
    (row : ℤ) : (Drop.drawRow d col tc hp sc row).width = sc.width := by
  unfold Drop.drawRow
  dsimp only
  split
  · split
    · rfl
    · rfl
  · rfl

theorem foldl_drawRow_width (d : Drop) (col : ℕ) (tc : List RgbColor) (hp : ℤ) :
    ∀ (rows : List ℤ) (sc : Screen),
      (rows.foldl (Drop.drawRow d col tc hp) sc).width = sc.width := by
  intro rows
  induction rows with
  | nil => intro sc; rfl
  | cons r rest ih =>
    intro sc
    rw [List.foldl_cons, ih, drawRow_width]

theorem draw_width (d : Drop) (sc : Screen) (col : ℕ) (tc : List RgbColor) :
    (d.draw sc col tc).width = sc.width := by
  unfold Drop.draw
  split
  · rfl
  · exact foldl_drawRow_width d col tc _ _ sc

theorem renderDropsAux_some (tc : List RgbColor) :
    ∀ (l : List (ℕ × Drop)) (sc : Screen), sc.width ≠ 0 →
      ∃ s2, renderDropsAux tc l sc = some s2 := by
  intro l
  induction l with
  | nil => intro sc _; exact ⟨sc, rfl⟩
  | cons p rest ih =>
    intro sc h
    obtain ⟨i, d⟩ := p
    unfold renderDropsAux
    rw [if_neg h]
    exact ih _ (by rw [draw_width]; exact h)

theorem clear_width (s : Screen) : s.clear.width = s.width := rfl

theorem render_drops_some (e : MatrixEngine) (sc : Screen) (h : sc.width ≠ 0) :
    ∃ s2, e.render_drops sc = some s2 := by
  unfold MatrixEngine.render_drops
  exact renderDropsAux_some e.trail_colors e.drops.enum sc.clear (by rw [clear_width]; exact h)

theorem renderDropsAux_wf (tc : List RgbColor) :
    ∀ (l : List (ℕ × Drop)) (sc s2 : Screen), sc.wf → renderDropsAux tc l sc = some s2 →
      s2.wf := by
  intro l
  induction l with
  | nil =>
    intro sc s2 h heq
    obtain rfl : sc = s2 := by simpa [renderDropsAux] using heq
    exact h
  | cons p rest ih =>
    intro sc s2 h heq
    obtain ⟨i, d⟩ := p
    unfold renderDropsAux at heq
    by_cases h0 : sc.width = 0
    · rw [if_pos h0] at heq
      exact absurd heq (by simp)
    · rw [if_neg h0] at heq
      exact ih _ _ (draw_wf d sc (i % sc.width) tc h) heq

/-- C9: every Screen produced by `new` or transformed by `resize`, `clear`,
`Drop::draw` or `render_drops` keeps both grids at exactly `height` rows of
exactly `width` cells, and under this invariant the unguarded
`screen.colors[row][col]` write in `Drop::draw` — reached only after the
guarded lookup into `chars` at the same coordinates succeeds — is in
bounds. -/
theorem screen_grid_invariant :
    (∀ h w bg, (Screen.new h w bg).wf)
    ∧ (∀ (s : Screen) H W, (s.resize H W).wf)
    ∧ (∀ s : Screen, s.wf → s.clear.wf)
    ∧ (∀ (d : Drop) (s : Screen) col tc, s.wf → (d.draw s col tc).wf)
    ∧ (∀ (e : MatrixEngine) (s s2 : Screen), s.wf → e.render_drops s = some s2 → s2.wf)
    ∧ (∀ (s : Screen) row col, s.wf → row < s.chars.length →
        col < (s.chars.getD row []).length →
        row < s.colors.length ∧ col < (s.colors.getD row []).length) := by
  refine ⟨new_wf, resize_wf, clear_wf, fun d s col tc h => draw_wf d s col tc h, ?_, ?_⟩
  · intro e s s2 h heq
    exact renderDropsAux_wf e.trail_colors e.drops.enum s.clear s2 (clear_wf s h) heq
  · intro s row col h hrow hcol
    obtain ⟨h1, h2, h3, h4⟩ := h
    have hrh : row < s.height := h1 ▸ hrow
    refine ⟨h2 ▸ hrh, ?_⟩
    rw [h4 row hrh]
    rw [h3 row hrh] at hcol
    exact hcol

/-- C9 witness: the draw-preservation component applied to a concrete drop
and a concrete well-formed screen. -/
theorem screen_grid_invariant_witness :
    ((⟨(0 : ℚ), 8, 'A', true⟩ : Drop).draw (Screen.new 2 2 blackC) 0 [greenC]).wf :=
  screen_grid_invariant.2.2.2.1 ⟨(0 : ℚ), 8, 'A', true⟩ (Screen.new 2 2 blackC) 0 [greenC]
    (by decide)

theorem total_drops_zero (density : ℚ) : total_drops 0 density = 0 := by
  unfold total_drops
  rw [show ((0 : ℕ) : ℚ) * density = 0 by push_cast; ring]
  norm_num [roundQI]

/-- C10: an engine built by `new` or updated by `resize_drops` with width 0
has an empty drop collection (round(max(0×density, 0)) = 0), so the
`i % screen.width` in `render_drops` is never evaluated with a zero
divisor and `render_drops` succeeds on a Screen of the matching width —
for width 0 because there are no drops, and for any other width because the
divisor is nonzero. -/
theorem zero_width_drops_safe :
    (∀ h base d bg cs rands, (MatrixEngine.new h 0 base d bg cs rands).drops = [])
    ∧ (∀ (e : MatrixEngine) h cs rands, (e.resize_drops 0 h cs rands).drops = [])
    ∧ (∀ w h base d bg cs rands (s : Screen), s.width = w →
        ((MatrixEngine.new h w base d bg cs rands).render_drops s).isSome = true)
    ∧ (∀ (e : MatrixEngine) w h cs rands (s : Screen), s.width = w →
        ((e.resize_drops w h cs rands).render_drops s).isSome = true) := by
  have hnew : ∀ h base d bg cs rands, (MatrixEngine.new h 0 base d bg cs rands).drops = [] := by
    intro h base d bg cs rands
    show MatrixEngine.create_drops 0 h d cs rands = []
    unfold MatrixEngine.create_drops
    rw [total_drops_zero]
    rfl
  have hres : ∀ (e : MatrixEngine) h cs rands, (e.resize_drops 0 h cs rands).drops = [] := by
    intro e h cs rands
    unfold MatrixEngine.resize_drops
    rw [total_drops_zero]
    simp
  refine ⟨hnew, hres, ?_, ?_⟩
  · intro w h base d bg cs rands s hw
    by_cases h0 : w = 0
    · subst h0
      unfold MatrixEngine.render_drops
      rw [hnew h base d bg cs rands]
      rfl
    · obtain ⟨s2, hs⟩ := render_drops_some (MatrixEngine.new h w base d bg cs rands) s
        (by rw [hw]; exact h0)
      rw [hs]
      rfl
  · intro e w h cs rands s hw
    by_cases h0 : w = 0
    · subst h0
      unfold MatrixEngine.render_drops
      rw [hres e h cs rands]
      rfl
    · obtain ⟨s2, hs⟩ := render_drops_some (e.resize_drops w h cs rands) s
        (by rw [hw]; exact h0)
      rw [hs]
      rfl

/-- C10 witness: a width-0 engine renders successfully into a width-0
screen. -/
theorem zero_width_drops_safe_witness :
    ((MatrixEngine.new 2 0 greenC 1 blackC ['A'] (fun _ => nr0)).render_drops
      (Screen.new 2 0 blackC)).isSome = true :=
  zero_width_drops_safe.2.2.1 0 2 greenC 1 blackC ['A'] (fun _ => nr0) (Screen.new 2 0 blackC)
    rfl

/-! ### Scheduler helpers -/

theorem pollResize_last (s : AppState) (w h : ℕ) (rr : ℕ → NewRand) :
    (pollResize s w h rr).last_frame_time = s.last_frame_time := by
  unfold pollResize
  split
  · rfl
  · rfl

theorem pollResize_self (s : AppState) (rr : ℕ → NewRand) :
    pollResize s s.width s.height rr = s := by
  unfold pollResize
  rw [if_neg (by simp)]

theorem handleEvent_input (s : AppState) (r : EventResult) (hr : isExitEvent r = false) :
    handleEvent s (LoopEvent.inputReady r) = StepOut.cont s := by
  cases r with
  | keyEvent code ctrl =>
    simp only [isExitEvent] at hr
    by_cases hcond : (code = 'c' ∧ ctrl = true)
    · rw [if_pos hcond] at hr
      exact absurd hr (by simp)
    · simp only [handleEvent]
      rw [if_neg hcond]
  | otherEvent => rfl
  | streamError => exact absurd hr (by simp [isExitEvent])
  | streamEnd => exact absurd hr (by simp [isExitEvent])

theorem input_iter_cont (s : AppState) (w h : ℕ) (rr : ℕ → NewRand) (r : EventResult)
    (hr : isExitEvent r = false) :
    loopIter s (IterInput.iter w h rr (LoopEvent.inputReady r)) =
      StepOut.cont (pollResize s w h rr) := by
  unfold loopIter
  exact handleEvent_input (pollResize s w h rr) r hr

theorem frame_sets_last (s : AppState) (now : ℚ) (ok : Bool) (rands : ℕ → DropRand)
    (s2 : AppState) (h : handleEvent s (LoopEvent.frameTick now ok rands) = StepOut.cont s2) :
    s2.last_frame_time = now := by
  unfold handleEvent at h
  dsimp only at h
  rcases hrd : (s.engine.update_drops (Int.ofNat s.height) s.char_set
      (s.speed * (now - s.last_frame_time)) rands).render_drops s.current_screen with _ | painted
  · rw [hrd] at h
    exact absurd h (by simp)
  · rw [hrd] at h
    cases ok with
    | false => exact absurd h (by simp)
    | true =>
      simp only [eq_self_iff_true, if_true] at h
      injection h with h2
      rw [← h2]

theorem runLoop_inputs (l : List IterInput) :
    ∀ (s : AppState), (∀ i ∈ l, isNonExitInput i) →
      ∃ s2, runLoop s l = LoopResult.ranOut s2 ∧ s2.last_frame_time = s.last_frame_time := by
  induction l with
  | nil => intro s _; exact ⟨s, rfl, rfl⟩
  | cons i rest ih =>
    intro s h
    have hi := h i (List.mem_cons_self i rest)
    match i with
    | IterInput.sizeError => exact hi.elim
    | IterInput.iter w h2 rr (LoopEvent.frameTick now ok rands) => exact hi.elim
    | IterInput.iter w h2 rr (LoopEvent.inputReady r) =>
      have hstep := input_iter_cont s w h2 rr r hi
      have hrec := ih (pollResize s w h2 rr)
        (fun j hj => h j (List.mem_cons_of_mem _ hj))
      obtain ⟨s3, hs3, hlast3⟩ := hrec
      refine ⟨s3, ?_, ?_⟩
      · show (match loopIter s (IterInput.iter w h2 rr (LoopEvent.inputReady r)) with
          | StepOut.cont s2 => runLoop s2 rest
          | StepOut.exitLoop s2 => LoopResult.brokeOut s2
          | StepOut.earlyReturn => LoopResult.earlyReturn
          | StepOut.aborted => LoopResult.aborted) = LoopResult.ranOut s3
        rw [hstep]
        exact hs3
      · rw [hlast3, pollResize_last]

/-- C4: the frame deadline is the absolute instant
`last_frame_time + FRAME_DURATION`; handling a non-exiting input event
continues the loop without touching `last_frame_time` (with unchanged
polled dimensions the whole state is untouched, so no simulation/render
step runs), `last_frame_time` is assigned (to `now`) only in the
frame-deadline branch, and any sequence of input arrivals leaves the next
frame deadline unchanged. -/
theorem scheduler_deadline_input_independent :
    (∀ (s : AppState) (w h : ℕ) (rr : ℕ → NewRand) (r : EventResult),
      isExitEvent r = false →
      ∃ s2, loopIter s (IterInput.iter w h rr (LoopEvent.inputReady r)) = StepOut.cont s2
        ∧ s2.last_frame_time = s.last_frame_time ∧ nextDeadline s2 = nextDeadline s)
    ∧ (∀ (s : AppState) (rr : ℕ → NewRand) (r : EventResult),
      isExitEvent r = false →
      loopIter s (IterInput.iter s.width s.height rr (LoopEvent.inputReady r)) = StepOut.cont s)
    ∧ (∀ (s : AppState) (now : ℚ) (ok : Bool) (rands : ℕ → DropRand) (s2 : AppState),
      handleEvent s (LoopEvent.frameTick now ok rands) = StepOut.cont s2 →
      s2.last_frame_time = now)
    ∧ (∀ (s : AppState) (l : List IterInput), (∀ i ∈ l, isNonExitInput i) →
      ∃ s2, runLoop s l = LoopResult.ranOut s2 ∧ nextDeadline s2 = nextDeadline s) := by
  refine ⟨?_, ?_, frame_sets_last, ?_⟩
  · intro s w h rr r hr
    exact ⟨pollResize s w h rr, input_iter_cont s w h rr r hr, pollResize_last s w h rr,
      by unfold nextDeadline; rw [pollResize_last]⟩
  · intro s rr r hr
    rw [input_iter_cont s s.width s.height rr r hr, pollResize_self]
  · intro s l h
    obtain ⟨s2, hs2, hlast⟩ := runLoop_inputs l s h
    exact ⟨s2, hs2, by unfold nextDeadline; rw [hlast]⟩

/-- C4 witness: a non-key event with unchanged polled dimensions leaves the
loop state (and hence the deadline) untouched. -/
theorem scheduler_deadline_input_independent_witness :
    loopIter init_state (IterInput.iter init_state.width init_state.height (fun _ => nr0)
      (LoopEvent.inputReady EventResult.otherEvent)) = StepOut.cont init_state :=
  scheduler_deadline_input_independent.2.1 init_state (fun _ => nr0) EventResult.otherEvent rfl

theorem frame_render_error_early (s : AppState) (now : ℚ) (rands : ℕ → DropRand)
    (h0 : s.current_screen.width ≠ 0) :
    handleEvent s (LoopEvent.frameTick now false rands) = StepOut.earlyReturn := by
  unfold handleEvent
  dsimp only
  obtain ⟨p, hp⟩ := render_drops_some (s.engine.update_drops (Int.ofNat s.height) s.char_set
    (s.speed * (now - s.last_frame_time)) rands) s.current_screen h0
  rw [hp]
  rfl

/-- C1 (code-bug evaluation): when the terminal write inside
`render_changes` fails during a frame tick, `main` returns through the `?`
operator and the restoration sequence (`cleanup`) runs zero times — not
once as claimed — while the three `break` exits (Ctrl+C, stream error,
stream end) do run it exactly once. -/
theorem main_render_error_skips_cleanup :
    cleanupCount (runLoop init_state
      [IterInput.iter 1 2 (fun _ => nr0)
        (LoopEvent.frameTick (33/1000) false (fun _ => dr0))]) = 0
    ∧ cleanupCount (runLoop init_state
      [IterInput.iter 1 2 (fun _ => nr0)
        (LoopEvent.inputReady (EventResult.keyEvent 'c' true))]) = 1
    ∧ cleanupCount (runLoop init_state
      [IterInput.iter 1 2 (fun _ => nr0) (LoopEvent.inputReady EventResult.streamError)]) = 1
    ∧ cleanupCount (runLoop init_state
      [IterInput.iter 1 2 (fun _ => nr0) (LoopEvent.inputReady EventResult.streamEnd)]) = 1 := by
  refine ⟨?_, by decide, by decide, by decide⟩
  have h1 : loopIter init_state (IterInput.iter 1 2 (fun _ => nr0)
      (LoopEvent.frameTick (33/1000) false (fun _ => dr0))) = StepOut.earlyReturn := by
    have hpoll : pollResize init_state 1 2 (fun _ => nr0) = init_state := by
      unfold pollResize
      rw [if_neg (by decide)]
    show handleEvent (pollResize init_state 1 2 (fun _ => nr0))
      (LoopEvent.frameTick (33/1000) false (fun _ => dr0)) = StepOut.earlyReturn
    rw [hpoll]
    exact frame_render_error_early init_state (33/1000) (fun _ => dr0) (by decide)
  have h2 : runLoop init_state
      [IterInput.iter 1 2 (fun _ => nr0)
        (LoopEvent.frameTick (33/1000) false (fun _ => dr0))] = LoopResult.earlyReturn := by
    unfold runLoop
    rw [h1]
  rw [h2]
  rfl

end Rustrix
